import Mathlib

/-!
Verification of the segregated-free-list dynamic memory allocator in
`src/mm.c` against its natural-language specification.

The C source is shallowly embedded at three granularities, each documented
at its definitions:

* an allocator-state model (`MMState`, `mallocM`, `freeM`, `reallocM`,
  `extend_heapM`, `find_fitM`) that tracks the physical block chain, the
  contents of the single `free_listp` chain, and the contents of the
  `segregated_lists` buckets;
* a pointer-level model (`FLState`, `insertFL`, `removeFL`) of the intrusive
  free-list link manipulation, used to settle the null-dereference claims;
* a byte-level model (`memcpyTake`, `memsetList`) for the `realloc` copy and
  the `calloc` zero-fill.

Machine integers are `Nat` with explicit `% 2^64` where `size_t` overflow
matters.  Note: as committed, `mm.c` does not compile — `find_fit` uses
undeclared locals `size` and `bp`, and `insert_to_free_list` /
`remove_from_free_list` use an undeclared global `free_listp`.  The embedding
reads `size` as initialized to the argument `asize`, `bp` as a local, and
`free_listp` as a global, which is the only reading under which those
functions mean anything; everything else is taken literally from the source.
-/

namespace MM

/-- `WSIZE` (mm.c line 40): word and header/footer size, `sizeof(void *)` = 8
on the 64-bit target. -/
def WSIZE : Nat := 8

/-- `DSIZE` (mm.c line 41): double word size. -/
def DSIZE : Nat := 16

/-- `CHUNKSIZE` (mm.c line 42): heap is extended by at least this many bytes. -/
def CHUNKSIZE : Nat := 4096

/-- `OVERHEAD` (mm.c line 43): header plus footer bytes. -/
def OVERHEAD : Nat := 16

/-- `LISTLIMIT` (mm.c line 44): number of segregated free-list classes. -/
def LISTLIMIT : Nat := 20

/-- Modulus of 64-bit `size_t` arithmetic. -/
def WORDMOD : Nat := 2 ^ 64

/-- `ALIGN(size)` (mm.c line 37): `((size) + (ALIGNMENT-1)) & ~(DSIZE - 1)`
with `ALIGNMENT = 16`; the wrapping addition and the low-4-bit mask are
written out on `Nat`. -/
def align (s : Nat) : Nat := (s + 15) % WORDMOD / 16 * 16

/-- Adjusted block size computed by `malloc` (mm.c lines 130-133):
`DSIZE + OVERHEAD` for requests up to `DSIZE`, otherwise
`ALIGN(size + OVERHEAD)`. -/
def asizeOf (size : Nat) : Nat :=
  if size ≤ DSIZE then DSIZE + OVERHEAD else align (size + OVERHEAD)

/-- The size-class loop of `find_fit` (mm.c lines 275-279):
`while ((listIdx < LISTLIMIT) && (size > 1)) { listIdx++; size >>= 1; }`.
The first argument is structural fuel; since `listIdx` increases by one per
iteration and the guard requires `listIdx < 20`, fuel `20` starting from
`listIdx = 0` reproduces the loop exactly. -/
def listIdxAux : Nat → Nat → Nat → Nat
  | 0, idx, _ => idx
  | fuel + 1, idx, s => if idx < LISTLIMIT ∧ 1 < s then listIdxAux fuel (idx + 1) (s / 2) else idx

/-- Size-class index chosen by `find_fit` for an adjusted size (the source's
undeclared `size` local is read as initialized to `asize`). -/
def listIdx (asize : Nat) : Nat := listIdxAux 20 0 asize

/-! ### Allocator-state model

The physical heap is the chain of blocks from the prologue sentinel to the
epilogue sentinel, each block being `(size, allocated)`; block addresses are
determined by the layout, with the prologue's payload pointer at 16 as after
`mm_init` (mm.c lines 96-103).  The contents of the single `free_listp`
chain are modelled as a list of block addresses (`freeList`), and the
contents of each `segregated_lists[i]` chain as a list of addresses
(`buckets`).  As in the source, `find_fit` consults `buckets` while
insertion and removal act on `freeList` — the embedding preserves the
source's disconnect between the two. -/

/-- Allocator state: physical block chain (prologue and epilogue included),
contents of the `free_listp` chain, and contents of the 20
`segregated_lists` chains. -/
structure MMState where
  blocks : List (Nat × Bool)
  freeList : List Nat
  buckets : List (List Nat)
deriving DecidableEq, Repr

/-- Payload address of block number `k` in the chain: the prologue block
pointer is 16, and each block advances by its size (`NEXT_BLKP`, mm.c
line 64). -/
def bpOf (blocks : List (Nat × Bool)) (k : Nat) : Nat :=
  16 + ((blocks.take k).map Prod.fst).sum

/-- Index of the block whose payload address is `addr`, walking the chain
from address `cur` (the heap walk underlying `HDRP`/`NEXT_BLKP` address
arithmetic). -/
def findBlockIdx : List (Nat × Bool) → Nat → Nat → Option Nat
  | [], _, _ => none
  | (sz, _) :: rest, cur, addr =>
      if cur = addr then some 0 else (findBlockIdx rest (cur + sz) addr).map (· + 1)

/-- `GET_SIZE(HDRP(addr))` in the state model: size stored in the header of
the block at `addr`, or 0 when `addr` is not a block address. -/
def sizeOfAddr (s : MMState) (addr : Nat) : Nat :=
  match findBlockIdx s.blocks 16 addr with
  | some k => (s.blocks.getD k (0, true)).1
  | none => 0

/-- First-fit scan of one free-list chain (mm.c lines 281-284): return the
first address whose block size is at least `asize`.  The C loop's
terminating read of `GET_ALLOC(HDRP(NULL))` at the end of the chain is
modelled as a clean end of the list. -/
def findFitInList (s : MMState) : List Nat → Nat → Option Nat
  | [], _ => none
  | addr :: rest, asize =>
      if asize ≤ sizeOfAddr s addr then some addr else findFitInList s rest asize

/-- `find_fit` (mm.c lines 273-286): map `asize` to its size class and scan
only `segregated_lists[listIdx]` — the source never escalates to a larger
class.  Via `getD`, this version also collapses the fault paths of the
source (the out-of-bounds `segregated_lists[20]` read and the terminating
wild read of the chain walk) into a clean no-fit; `find_fitFaithful` below
keeps those faults. -/
def find_fitM (s : MMState) (asize : Nat) : Option Nat :=
  findFitInList s (s.buckets.getD (listIdx asize) []) asize

/-- `GET(HDRP(addr))` with fault tracking: the header word of the block
whose payload address is `addr`.  Reading the header of an address that is
not a block payload address — in particular `HDRP(NULL)`, 8 bytes below the
null pointer — is a wild read, modelled as `none`. -/
def headerOfAddr (s : MMState) (addr : Nat) : Option (Nat × Bool) :=
  (findBlockIdx s.blocks 16 addr).map fun k => s.blocks.getD k (0, true)

/-- The scan loop of `find_fit` (mm.c lines 280-285) with its fault path:
`for (; GET_ALLOC(HDRP(bp)) == 0; bp = GET_NEXT_PTR(bp))`, then
`return NULL`.  The chain is NULL-terminated, so the end of the contents
list is `bp == NULL`, where the loop condition itself evaluates
`GET_ALLOC(HDRP(NULL))` — a wild read, `none`.  The clean `return NULL`
(`some none`) is reached only by meeting an allocated block in the chain,
which a well-formed free list never contains. -/
def findFitWalk (s : MMState) : List Nat → Nat → Option (Option Nat)
  | [], _ => none
  | addr :: rest, asize =>
      match headerOfAddr s addr with
      | none => none
      | some (sz, alloc) =>
          if alloc then some none
          else if asize ≤ sz then some (some addr) else findFitWalk s rest asize

/-- Fault-accurate `find_fit` (mm.c lines 273-286): the class-index loop,
the `segregated_lists[LISTLIMIT]` out-of-bounds read for `asize ≥ 2^20`
(a fault), and the chain scan with its terminating wild read. -/
def find_fitFaithful (s : MMState) (asize : Nat) : Option (Option Nat) :=
  if listIdx asize < LISTLIMIT then findFitWalk s (s.buckets.getD (listIdx asize) []) asize
  else none

/-- Replace blocks `k` and `k+1` by one free block carrying the sum of their
sizes: the header/footer rewrite performed by the merging cases of
`coalesce` (mm.c lines 324-344). -/
def mergeTwo (bs : List (Nat × Bool)) (k : Nat) : List (Nat × Bool) :=
  bs.take k ++ [((bs.getD k (0, true)).1 + (bs.getD (k + 1) (0, true)).1, false)] ++ bs.drop (k + 2)

/-- `coalesce` (mm.c lines 318-347) acting on block number `k` (which the
caller has already marked free): examine the allocation bits of the physical
neighbours, detach each absorbed free neighbour from the `free_listp` chain
(`remove_from_free_list`), merge the address ranges, then insert the merged
block at the head of the `free_listp` chain (`insert_to_free_list`, mm.c
line 345) and return its address.  Out-of-range neighbour reads yield the
allocated sentinels. -/
def coalesceAt (s : MMState) (k : Nat) : Nat × MMState :=
  let pa := (s.blocks.getD (k - 1) (0, true)).2
  let na := (s.blocks.getD (k + 1) (0, true)).2
  if pa ∧ ¬ na then
    let s1 : MMState :=
      { s with blocks := mergeTwo s.blocks k,
               freeList := s.freeList.erase (bpOf s.blocks (k + 1)) }
    (bpOf s1.blocks k, { s1 with freeList := bpOf s1.blocks k :: s1.freeList })
  else if ¬ pa ∧ na then
    let s1 : MMState :=
      { s with blocks := mergeTwo s.blocks (k - 1),
               freeList := s.freeList.erase (bpOf s.blocks (k - 1)) }
    (bpOf s1.blocks (k - 1), { s1 with freeList := bpOf s1.blocks (k - 1) :: s1.freeList })
  else if ¬ pa ∧ ¬ na then
    let s1 : MMState :=
      { s with blocks := mergeTwo (mergeTwo s.blocks k) (k - 1),
               freeList := (s.freeList.erase (bpOf s.blocks (k - 1))).erase (bpOf s.blocks (k + 1)) }
    (bpOf s1.blocks (k - 1), { s1 with freeList := bpOf s1.blocks (k - 1) :: s1.freeList })
  else
    (bpOf s.blocks k, { s with freeList := bpOf s.blocks k :: s.freeList })

/-- `free` (mm.c lines 153-162): a null pointer is a no-op; otherwise mark
the block free and coalesce.  Passing an address that is not a block payload
address is undefined behaviour in the source (it would read a garbage
header) and is modelled as `none`. -/
def freeM (ptr : Nat) (s : MMState) : Option MMState :=
  if ptr = 0 then some s
  else
    match findBlockIdx s.blocks 16 ptr with
    | none => none
    | some k =>
        let sz := (s.blocks.getD k (0, true)).1
        some (coalesceAt { s with blocks := s.blocks.set k (sz, false) } k).2

/-- `place` (mm.c lines 292-313): with `remain` the leftover after carving
`asize` out of the free block at `bp` (64-bit wrapping subtraction, as in
the source), either split — allocated low part, free remainder, remainder
coalesced — or consume the whole block; either way the block is removed from
the free list. -/
def placeM (s : MMState) (bp asize : Nat) : Option MMState :=
  match findBlockIdx s.blocks 16 bp with
  | none => none
  | some k =>
      let sz := (s.blocks.getD k (0, true)).1
      let remain := (sz + WORDMOD - asize) % WORDMOD
      if DSIZE + OVERHEAD ≤ remain then
        let blocks1 := s.blocks.take k ++ [(asize, true), (remain, false)] ++ s.blocks.drop (k + 1)
        some (coalesceAt { s with blocks := blocks1, freeList := s.freeList.erase bp } (k + 1)).2
      else
        some { s with blocks := s.blocks.set k (sz, true), freeList := s.freeList.erase bp }

/-- `extend_heap` (mm.c lines 251-268): round the word count up to an even
number of words; if `mem_sbrk` fails (modelled by the `sbrk` argument being
`none`) return null with no heap change — the guard at line 258 precedes
every write; otherwise overwrite the old epilogue with a free block of the
new size followed by a fresh epilogue, and coalesce it with the preceding
block. -/
def extend_heapM (words : Nat) (sbrk : Option Unit) (s : MMState) : Option Nat × MMState :=
  let size := if words % 2 = 1 then (words + 1) * WSIZE else words * WSIZE
  match sbrk with
  | none => (none, s)
  | some _ =>
      let blocks1 := s.blocks.dropLast ++ [(size, false), (0, true)]
      let (addr, s1) := coalesceAt { s with blocks := blocks1 } (blocks1.length - 2)
      (some addr, s1)

/-- `malloc` (mm.c lines 119-147): zero requests return null; otherwise the
adjusted size is searched for in the free lists, and on a miss the heap is
grown by `max(asize, CHUNKSIZE)` bytes, failure of the growth primitive
making the whole call return null. -/
def mallocM (size : Nat) (sbrk : Option Unit) (s : MMState) : Option (Option Nat × MMState) :=
  if size = 0 then some (none, s)
  else
    match find_fitM s (asizeOf size) with
    | some bp => (placeM s bp (asizeOf size)).map fun s1 => (some bp, s1)
    | none =>
        match extend_heapM (max (asizeOf size) CHUNKSIZE / WSIZE) sbrk s with
        | (none, s1) => some (none, s1)
        | (some bp, s1) => (placeM s1 bp (asizeOf size)).map fun s2 => (some bp, s2)

/-- `malloc` (mm.c lines 119-147) built on the fault-accurate `find_fit`:
a fault inside the fit search propagates; a clean no-fit proceeds to heap
growth exactly as in `mallocM`. -/
def mallocFaithful (size : Nat) (sbrk : Option Unit) (s : MMState) :
    Option (Option Nat × MMState) :=
  if size = 0 then some (none, s)
  else
    match find_fitFaithful s (asizeOf size) with
    | none => none
    | some (some bp) => (placeM s bp (asizeOf size)).map fun s1 => (some bp, s1)
    | some none =>
        match extend_heapM (max (asizeOf size) CHUNKSIZE / WSIZE) sbrk s with
        | (none, s1) => some (none, s1)
        | (some bp, s1) => (placeM s1 bp (asizeOf size)).map fun s2 => (some bp, s2)

/-- `realloc` (mm.c lines 169-202): size 0 is a `free` returning null — this
test precedes the null-pointer test; a null pointer is a plain `malloc`;
otherwise allocate, copy (the byte-level copy is modelled separately by
`memcpyTake`), free the old block, and return the new pointer; if the inner
`malloc` fails the original block is left untouched and null is returned. -/
def reallocM (ptr size : Nat) (sbrk : Option Unit) (s : MMState) : Option (Option Nat × MMState) :=
  if size = 0 then (freeM ptr s).map fun s1 => (none, s1)
  else if ptr = 0 then mallocM size sbrk s
  else
    match mallocM size sbrk s with
    | none => none
    | some (none, s1) => some (none, s1)
    | some (some newp, s1) => (freeM ptr s1).map fun s2 => (some newp, s2)

/-! ### Pointer-level model of the free-list link manipulation

`insert_to_free_list` and `remove_from_free_list` (mm.c lines 349-364)
manipulate intrusive `prev`/`next` pointers stored in the payloads of free
blocks: `GET_PREV_PTR(bp)` is the word at `bp`, `GET_NEXT_PTR(bp)` the word
at `bp + WSIZE`.  Memory is an association list of (address, word); every
access goes through a base pointer, and an access through a null base
pointer is the fault the safety claim is about, modelled as `none`. -/

/-- Store a word in the association-list memory (replace or append). -/
def assocSet : List (Nat × Nat) → Nat → Nat → List (Nat × Nat)
  | [], a, v => [(a, v)]
  | (k, x) :: rest, a, v => if k = a then (a, v) :: rest else (k, x) :: assocSet rest a v

/-- `GET_PREV_PTR(bp)` (mm.c line 70): read the word at `bp`; faults on a
null base pointer. -/
def getPrevPtr (m : List (Nat × Nat)) (bp : Nat) : Option Nat :=
  if bp = 0 then none else some ((m.lookup bp).getD 0)

/-- `GET_NEXT_PTR(bp)` (mm.c line 71): read the word at `bp + WSIZE`; faults
on a null base pointer. -/
def getNextPtr (m : List (Nat × Nat)) (bp : Nat) : Option Nat :=
  if bp = 0 then none else some ((m.lookup (bp + WSIZE)).getD 0)

/-- `SET_PREV_PTR(bp, v)` (mm.c line 74): write the word at `bp`; faults on
a null base pointer. -/
def setPrevPtr (m : List (Nat × Nat)) (bp v : Nat) : Option (List (Nat × Nat)) :=
  if bp = 0 then none else some (assocSet m bp v)

/-- `SET_NEXT_PTR(bp, v)` (mm.c line 75): write the word at `bp + WSIZE`;
faults on a null base pointer. -/
def setNextPtr (m : List (Nat × Nat)) (bp v : Nat) : Option (List (Nat × Nat)) :=
  if bp = 0 then none else some (assocSet m (bp + WSIZE) v)

/-- Free-list manipulation state: the word memory, the head `free_listp`
(0 = NULL), and the 20 `segregated_lists` head words, which
`insert_to_free_list` and `remove_from_free_list` never mention. -/
structure FLState where
  mem : List (Nat × Nat)
  flp : Nat
  seg : List Nat
deriving DecidableEq, Repr

/-- `insert_to_free_list` (mm.c lines 349-355), statement by statement:
`SET_NEXT_PTR(bp, free_listp); SET_PREV_PTR(free_listp, bp);
SET_PREV_PTR(bp, NULL); free_listp = bp;`.  The second statement is
unconditional, so it writes through `free_listp` even when the list is
empty (`free_listp == NULL`). -/
def insertFL (bp : Nat) (s : FLState) : Option FLState :=
  match setNextPtr s.mem bp s.flp with
  | none => none
  | some m1 =>
      match setPrevPtr m1 s.flp bp with
      | none => none
      | some m2 =>
          match setPrevPtr m2 bp 0 with
          | none => none
          | some m3 => some { mem := m3, flp := bp, seg := s.seg }

/-- `remove_from_free_list` (mm.c lines 357-364): relink the predecessor (or
the list head when there is none), then `SET_PREV_PTR(GET_NEXT_PTR(bp),
GET_PREV_PTR(bp))` unconditionally — a write through `GET_NEXT_PTR(bp)` even
when `bp` is the last element (`GET_NEXT_PTR(bp) == NULL`). -/
def removeFL (bp : Nat) (s : FLState) : Option FLState :=
  match getPrevPtr s.mem bp with
  | none => none
  | some prev =>
      match getNextPtr s.mem bp with
      | none => none
      | some next =>
          let step :=
            if prev ≠ 0 then (setNextPtr s.mem prev next).map fun m => (m, s.flp)
            else some (s.mem, next)
          match step with
          | none => none
          | some (m1, flp1) =>
              match setPrevPtr m1 next prev with
              | none => none
              | some m2 => some { mem := m2, flp := flp1, seg := s.seg }

/-- All-empty `segregated_lists` head words, as left by `mm_init` (mm.c
lines 105-107). -/
def seg0 : List Nat := List.replicate 20 0

/-! ### Free-list operation trace of `coalesce`

For the frame claim about `coalesce`'s free-list effects, the calls it
issues to `remove_from_free_list` and `insert_to_free_list` are recorded as
a trace, in source order. -/

/-- A free-list operation: removal or insertion of the block at an address. -/
inductive FLOp where
  | rem (bp : Nat) : FLOp
  | ins (bp : Nat) : FLOp
deriving DecidableEq, Repr

/-- Whether a free-list operation is a removal. -/
def FLOp.isRem : FLOp → Bool
  | .rem _ => true
  | .ins _ => false

/-- The free-list calls made by `coalesce` (mm.c lines 318-347) given the
allocation bits of the physical neighbours and the three block addresses:
each merging case removes the absorbed neighbour(s), and every case ends
with `insert_to_free_list(bp)` (line 345) on the merged block — `bp` itself
when the previous block stayed allocated, the previous block otherwise. -/
def coalesceFLOps (prevAlloc nextAlloc : Bool) (prevBp bp nextBp : Nat) : List FLOp :=
  if prevAlloc && !nextAlloc then [.rem nextBp, .ins bp]
  else if !prevAlloc && nextAlloc then [.rem prevBp, .ins prevBp]
  else if !prevAlloc && !nextAlloc then [.rem prevBp, .rem nextBp, .ins prevBp]
  else [.ins bp]

/-! ### Byte-level models of the `realloc` copy and the `calloc` zero-fill -/

/-- Number of bytes `realloc` copies (mm.c lines 193-196): `oldsize` is
`GET_SIZE(HDRP(oldptr))` — the full old block size, overhead included — then
`if (size < oldsize) oldsize = size;` and `memcpy` copies `oldsize` bytes. -/
def reallocCopyLen (oldBlockSize m : Nat) : Nat :=
  if m < oldBlockSize then m else oldBlockSize

/-- `memcpy(dst, src, len)` over byte lists: the first `len` bytes of the
destination become the first `len` bytes of the source region. -/
def memcpyTake (src : List Nat) (len : Nat) (dst : List Nat) : List Nat :=
  src.take len ++ dst.drop len

/-- `memset(p, 0, len)` over a byte list: zero the first `len` bytes. -/
def memsetList (p : List Nat) (len : Nat) : List Nat :=
  List.replicate (min len p.length) 0 ++ p.drop len

/-- `calloc` (mm.c lines 207-216): `bytes = nmemb * size` in wrapping
`size_t` arithmetic, `newptr = malloc(bytes)`, then `memset(newptr, 0,
bytes)` with no null check.  The `malloc` outcome is the `mallocRes`
argument (`some payload` with the block's bytes on success, `none` on
failure); `memset` through a null pointer with a positive count is a fault,
modelled as `none`. -/
def callocM (nmemb size : Nat) (mallocRes : Option (List Nat)) : Option (Option (List Nat)) :=
  let bytes := nmemb * size % WORDMOD
  match mallocRes with
  | some payload => some (some (memsetList payload bytes))
  | none => if bytes = 0 then some none else none

/-! ### Physical-layout model for the eager-coalescing invariant

For the heap-wide invariant "no two physically adjacent blocks are both
free", the heap is the chain of `(size, allocated)` blocks from the
prologue sentinel to the epilogue sentinel, and each heap-mutating step of
the source is a relation between chains.  `coalesceLocal` is the same case
analysis as `coalesce` (mm.c lines 318-347), written on the three-block
window it inspects. -/

/-- Two physically adjacent blocks are not both free. -/
def okAdj (a b : Nat × Bool) : Prop := a.2 = true ∨ b.2 = true

/-- The heap-walk invariant: no two physically consecutive blocks are both
free. -/
def noAdjFree (l : List (Nat × Bool)) : Prop := List.Chain' okAdj l

/-- `coalesce` (mm.c lines 318-347) on the window (previous block, block
being freed, next block): the four cases on the neighbours' allocation bits,
each merging the free neighbours into one free block at the lowest
address. -/
def coalesceLocal (p b n : Nat × Bool) : List (Nat × Bool) :=
  if p.2 then
    if n.2 then [p, (b.1, false), n] else [p, (b.1 + n.1, false)]
  else
    if n.2 then [(p.1 + b.1, false), n] else [(p.1 + b.1 + n.1, false)]

/-- The physical heap mutations of the public operations, as relations on
the block chain (prologue and epilogue included):
* `free` (mm.c lines 153-162) marks an allocated block free and coalesces it;
* `extend` (mm.c lines 251-268) replaces the epilogue by a fresh free block
  and a new epilogue, and coalesces the new block;
* `placeNoSplit` (mm.c lines 308-312) marks a whole free block allocated;
* `placeSplit` (mm.c lines 300-307) carves an allocated block of size
  `asize` out of a free block and coalesces the free remainder with its
  physically next block. -/
inductive HeapStep : List (Nat × Bool) → List (Nat × Bool) → Prop where
  | free (xs : List (Nat × Bool)) (p b n : Nat × Bool) (ys : List (Nat × Bool))
      (hb : b.2 = true) :
      HeapStep (xs ++ p :: b :: n :: ys) (xs ++ coalesceLocal p b n ++ ys)
  | extend (xs : List (Nat × Bool)) (p : Nat × Bool) (sz : Nat) :
      HeapStep (xs ++ [p, (0, true)]) (xs ++ coalesceLocal p (sz, false) (0, true))
  | placeNoSplit (xs : List (Nat × Bool)) (p b n : Nat × Bool) (ys : List (Nat × Bool))
      (hb : b.2 = false) :
      HeapStep (xs ++ p :: b :: n :: ys) (xs ++ p :: (b.1, true) :: n :: ys)
  | placeSplit (xs : List (Nat × Bool)) (p b n : Nat × Bool) (ys : List (Nat × Bool))
      (asize : Nat) (hb : b.2 = false) (hrem : DSIZE + OVERHEAD ≤ b.1 - asize) :
      HeapStep (xs ++ p :: b :: n :: ys)
        (xs ++ [p] ++ coalesceLocal (asize, true) (b.1 - asize, false) n ++ ys)

/-! ### Concrete states used by the claim theorems -/

/-- A heap whose single free block (4064 bytes, payload address 32) is
linked in segregated class 6, while class 5 — the class `find_fit` starts
from for an adjusted size of 32 — is empty. -/
def exStateC1 : MMState :=
  { blocks := [(16, true), (4064, false), (0, true)],
    freeList := [32],
    buckets := (List.replicate 20 ([] : List Nat)).set 6 [32] }

/-- A minimal heap (prologue and epilogue only) with every free list
empty. -/
def exStateC7 : MMState :=
  { blocks := [(16, true), (0, true)],
    freeList := [],
    buckets := List.replicate 20 ([] : List Nat) }

/-! ## Helper lemmas for the eager-coalescing invariant -/

/-- Splitting the no-adjacent-free invariant around a three-block window:
the chain up to and including the previous block, and the chain from the
next block on, each satisfy the invariant. -/
theorem chain'_decomp_middle {xs ys : List (Nat × Bool)} {p b n : Nat × Bool}
    (h : noAdjFree (xs ++ p :: b :: n :: ys)) :
    noAdjFree (xs ++ [p]) ∧ noAdjFree (n :: ys) := by
  have e : xs ++ p :: b :: n :: ys = (xs ++ [p]) ++ b :: n :: ys := by simp
  rw [noAdjFree, e] at h
  exact ⟨h.left_of_append, h.right_of_append.tail⟩

/-- Main coalescing lemma: if the chain up to the previous block `p` and the
chain from the next block `n` on each have no adjacent free blocks, then
after `coalesce`'s merge of the window `p, b, n` the whole heap has no
adjacent free blocks — regardless of `b`'s prior state. -/
theorem noAdjFree_coalesceLocal {xs ys : List (Nat × Bool)} {p b n : Nat × Bool}
    (h1 : noAdjFree (xs ++ [p])) (h2 : noAdjFree (n :: ys)) :
    noAdjFree (xs ++ coalesceLocal p b n ++ ys) := by
  unfold noAdjFree at *
  have hys : List.Chain' okAdj ys := h2.tail
  by_cases hp : p.2 = true <;> by_cases hn : n.2 = true
  · have e : xs ++ coalesceLocal p b n ++ ys = (xs ++ [p]) ++ ((b.1, false) :: n :: ys) := by
      simp [coalesceLocal, hp, hn]
    rw [e]
    refine h1.append (List.chain'_cons.mpr ⟨Or.inr hn, h2⟩) ?_
    intro x hx y hy
    have hx' : p = x := by simpa using hx
    have hy' : (b.1, false) = y := by simpa using hy
    subst hx'; subst hy'
    exact Or.inl hp
  · simp only [Bool.not_eq_true] at hn
    have e : xs ++ coalesceLocal p b n ++ ys = (xs ++ [p]) ++ ((b.1 + n.1, false) :: ys) := by
      simp [coalesceLocal, hp, hn]
    rw [e]
    refine h1.append (List.chain'_cons'.mpr ⟨?_, hys⟩) ?_
    · intro y hy
      rcases h2.rel_head? hy with h | h
      · rw [hn] at h; exact Bool.noConfusion h
      · exact Or.inr h
    · intro x hx y hy
      have hx' : p = x := by simpa using hx
      subst hx'
      exact Or.inl hp
  · simp only [Bool.not_eq_true] at hp
    have e : xs ++ coalesceLocal p b n ++ ys = xs ++ ((p.1 + b.1, false) :: n :: ys) := by
      simp [coalesceLocal, hp, hn]
    rw [e]
    refine (h1.left_of_append).append (List.chain'_cons.mpr ⟨Or.inr hn, h2⟩) ?_
    intro x hx y hy
    have hy' : (p.1 + b.1, false) = y := by simpa using hy
    subst hy'
    rcases (List.chain'_append.mp h1).2.2 x hx p (by simp) with h | h
    · exact Or.inl h
    · rw [hp] at h; exact Bool.noConfusion h
  · simp only [Bool.not_eq_true] at hp hn
    have e : xs ++ coalesceLocal p b n ++ ys = xs ++ ((p.1 + b.1 + n.1, false) :: ys) := by
      simp [coalesceLocal, hp, hn]
    rw [e]
    refine (h1.left_of_append).append (List.chain'_cons'.mpr ⟨?_, hys⟩) ?_
    · intro y hy
      rcases h2.rel_head? hy with h | h
      · rw [hn] at h; exact Bool.noConfusion h
      · exact Or.inr h
    · intro x hx y hy
      have hy' : (p.1 + b.1 + n.1, false) = y := by simpa using hy
      subst hy'
      rcases (List.chain'_append.mp h1).2.2 x hx p (by simp) with h | h
      · exact Or.inl h
      · rw [hp] at h; exact Bool.noConfusion h

/-! ## Claim theorems -/

/-- C1: counterexample to fit correctness on the code.  In `exStateC1` a
free block of 4064 bytes (payload address 32, linked in segregated class 6)
satisfies any request of adjusted size 32, yet `find_fit` — which maps 32 to
class 5 and never escalates to a larger class — reports no fit, so `malloc`
resorts to heap growth and fails outright when the growth primitive fails,
instead of succeeding without growing the heap. -/
theorem C1_find_fit_never_escalates :
    ((4064, false) ∈ exStateC1.blocks ∧ 32 ∈ exStateC1.buckets.getD 6 [] ∧
      asizeOf 16 ≤ sizeOfAddr exStateC1 32) ∧
    find_fitM exStateC1 (asizeOf 16) = none ∧
    mallocM 16 none exStateC1 = some (none, exStateC1) := by decide

/-- C2: the code never links a free block into a size-class bucket.
`insert_to_free_list` (mm.c lines 349-355) pushes the block onto the single
`free_listp` chain and never touches `segregated_lists`: inserting block 48
into a state whose 20 buckets are all empty succeeds yet leaves every bucket
empty, so the freshly freed block belongs to no size-class bucket. -/
theorem C2_insert_never_populates_buckets :
    insertFL 48 { mem := [], flp := 32, seg := seg0 } =
      some { mem := [(56, 32), (32, 48), (48, 0)], flp := 48, seg := seg0 } ∧
    (insertFL 48 { mem := [], flp := 32, seg := seg0 }).map FLState.seg = some seg0 := by decide

/-- C3: every physical heap mutation performed by the public operations —
freeing a block and coalescing it, extending the heap and coalescing the new
block, and placing with or without a split — preserves the invariant that no
two physically adjacent blocks are both free. -/
theorem C3_heapStep_preserves_noAdjFree (h h' : List (Nat × Bool))
    (hs : HeapStep h h') (hinv : noAdjFree h) : noAdjFree h' := by
  cases hs with
  | free xs p b n ys hb =>
      obtain ⟨h1, h2⟩ := chain'_decomp_middle hinv
      exact noAdjFree_coalesceLocal h1 h2
  | extend xs p sz =>
      have e : xs ++ [p, ((0 : Nat), true)] = (xs ++ [p]) ++ [((0 : Nat), true)] := by simp
      rw [noAdjFree, e] at hinv
      have h1 : noAdjFree (xs ++ [p]) := hinv.left_of_append
      have h2 : noAdjFree [((0 : Nat), true)] := List.chain'_singleton _
      have hm := noAdjFree_coalesceLocal (b := (sz, false)) h1 h2
      simpa using hm
  | placeNoSplit xs p b n ys hb =>
      rw [noAdjFree, List.chain'_append] at hinv ⊢
      obtain ⟨hxs, hmid, hseam⟩ := hinv
      refine ⟨hxs, ?_, ?_⟩
      · rw [List.chain'_cons] at hmid ⊢
        obtain ⟨hpb, hmid2⟩ := hmid
        rw [List.chain'_cons] at hmid2 ⊢
        obtain ⟨hbn, htail⟩ := hmid2
        exact ⟨Or.inr rfl, Or.inl rfl, htail⟩
      · intro x hx y hy
        have hy' : p = y := by simpa using hy
        subst hy'
        exact hseam x hx p (by simp)
  | placeSplit xs p b n ys asize hb hrem =>
      obtain ⟨h1, h2⟩ := chain'_decomp_middle hinv
      have h1' : noAdjFree ((xs ++ [p]) ++ [((asize : Nat), true)]) := by
        refine h1.append (List.chain'_singleton _) ?_
        intro x hx y hy
        have hy' : ((asize : Nat), true) = y := by simpa using hy
        subst hy'
        exact Or.inr rfl
      have hm := noAdjFree_coalesceLocal (b := (b.1 - asize, false)) h1' h2
      simpa [List.append_assoc] using hm

/-- Witness for C3: freeing the single allocated 32-byte block between the
prologue and the epilogue preserves the invariant. -/
theorem C3_heapStep_preserves_noAdjFree_witness :
    noAdjFree ([] ++ coalesceLocal (16, true) (32, true) (0, true) ++ []) :=
  C3_heapStep_preserves_noAdjFree _ _
    (HeapStep.free [] (16, true) (32, true) (0, true) [] rfl)
    (by simp [noAdjFree, List.chain'_cons, okAdj])

/-- C4 counterexample: the code does not copy `min(old_payload_size,
requested_size)` bytes.  For a block allocated for a 16-byte request
(payload 16 bytes, stored block size 32) resized to 100 bytes, `realloc`
copies `min(32, 100) = 32` bytes — the stored block size, overhead included
— not `min(16, 100) = 16`. -/
theorem C4_copy_length_counterexample :
    reallocCopyLen (asizeOf 16) 100 = 32 ∧ min 16 100 = 16 ∧
    reallocCopyLen (asizeOf 16) 100 ≠ min 16 100 := by decide

/-- C4 (amended): `realloc` copies `min(old_block_size, m)` bytes, where
`old_block_size = GET_SIZE(HDRP(oldptr))` includes the header/footer
overhead; since that length is at least `min(n, m)` for any original request
`n` that fits the block, the first `min(n, m)` payload bytes at the new
pointer equal the bytes previously stored at the old pointer. -/
theorem C4_realloc_preserves_min_payload (n m : Nat) (old dst : List Nat)
    (hm : 0 < m) (hn : n + 31 < WORDMOD) (hold : old.length = asizeOf n) :
    (memcpyTake old (reallocCopyLen (asizeOf n) m) dst).take (min n m) =
      old.take (min n m) := by
  have h64 : WORDMOD = 18446744073709551616 := by norm_num [WORDMOD]
  rw [h64] at hn
  have hasize : n ≤ asizeOf n := by
    unfold asizeOf align
    simp only [DSIZE, OVERHEAD, h64]
    split
    · omega
    · rw [Nat.mod_eq_of_lt (by omega)]
      omega
  have hcopy : min n m ≤ reallocCopyLen (asizeOf n) m := by
    unfold reallocCopyLen
    split <;> omega
  have holdlen : min n m ≤ old.length := by omega
  unfold memcpyTake
  rw [List.take_append_of_le_length (by simp; omega), List.take_take,
    min_eq_left hcopy]

/-- Witness for C4 (amended): resizing a 16-byte-request block to 100 bytes
preserves its first 16 payload bytes. -/
theorem C4_realloc_preserves_min_payload_witness :
    0 < 100 ∧ 16 + 31 < WORDMOD ∧ (List.range 32).length = asizeOf 16 ∧
    (memcpyTake (List.range 32) (reallocCopyLen (asizeOf 16) 100)
        (List.replicate 128 0)).take (min 16 100) =
      (List.range 32).take (min 16 100) :=
  ⟨by decide, by decide, by decide,
    C4_realloc_preserves_min_payload 16 100 (List.range 32) (List.replicate 128 0)
      (by decide) (by decide) (by decide)⟩

/-- C5 counterexample: `coalesce` does insert into a free list.  Even with
both neighbours allocated (no absorption at all), the trace of free-list
calls made by `coalesce` contains `insert_to_free_list(bp)` — line 345 runs
unconditionally. -/
theorem C5_coalesce_inserts_counterexample :
    FLOp.ins 32 ∈ coalesceFLOps true true 16 32 48 := by decide

/-- C5 (amended): `coalesce` detaches exactly the absorbed free neighbours
and then itself inserts the merged block into the free list as its final
free-list operation — the merged block being `bp` when the previous block
stayed allocated and the previous block otherwise; callers perform no
insertion. -/
theorem C5_coalesce_insertion_discipline (pa na : Bool) (p b n : Nat) :
    (coalesceFLOps pa na p b n).getLast? = some (FLOp.ins (if pa then b else p)) ∧
    ((coalesceFLOps pa na p b n).dropLast.all FLOp.isRem) = true := by
  cases pa <;> cases na <;> simp [coalesceFLOps, FLOp.isRem]

/-- C6: `calloc` has no null check, so when the underlying `malloc` fails
with a positive byte count it executes `memset(NULL, 0, bytes)` — a write
through the null pointer — instead of returning the failure indicator
without zero-filling; on success it does zero-fill the requested bytes. -/
theorem C6_calloc_faults_on_alloc_failure :
    callocM 1 8 none = none ∧
    callocM 2 4 (some [5, 6, 7, 8, 9, 10, 11, 12]) =
      some (some [0, 0, 0, 0, 0, 0, 0, 0]) := by decide

/-- C7: the claim fails on the code, because a no-fit fit search faults
before `extend_heap` can even run.  In every reachable state the bucket
heads are NULL (`insert_to_free_list` never writes `segregated_lists`), so
on the minimal heap a 5-byte request's scan immediately evaluates
`GET_ALLOC(HDRP(NULL))` — a wild read 8 bytes below the null pointer — and
`malloc` faults instead of returning null with the allocator state
unchanged.  The third conjunct records the half of the claim that is true
of the code text in isolation: `extend_heap` with a failing `mem_sbrk`
returns null before performing any heap write. -/
theorem C7_malloc_faults_before_failing_cleanly :
    find_fitFaithful exStateC7 (asizeOf 5) = none ∧
    mallocFaithful 5 none exStateC7 = none ∧
    extend_heapM (max (asizeOf 5) CHUNKSIZE / WSIZE) none exStateC7 = (none, exStateC7) := by
  decide

/-- C8: the size-class index is not always below `LISTLIMIT`.  For the
in-range request 1048560 the adjusted size is `2^20`, and the class loop —
whose guard `listIdx < LISTLIMIT` still permits the final increment to 20 —
computes index `LISTLIMIT` itself, so the subsequent `segregated_lists`
read is one past the end of the 20-entry array. -/
theorem C8_class_index_reaches_LISTLIMIT :
    asizeOf 1048560 = 1048576 ∧ listIdx (asizeOf 1048560) = LISTLIMIT := by decide

/-- C9: both free-list manipulations dereference null links.
`insert_to_free_list` on an empty list (`free_listp == NULL`) executes
`SET_PREV_PTR(NULL, bp)`, and `remove_from_free_list` on a last element
(`GET_NEXT_PTR(bp) == NULL`) executes `SET_PREV_PTR(NULL, ...)` — each a
write through a null pointer, modelled as the fault `none`. -/
theorem C9_free_list_null_dereference :
    insertFL 32 { mem := [], flp := 0, seg := seg0 } = none ∧
    removeFL 32 { mem := [(32, 0), (40, 0)], flp := 32, seg := seg0 } = none := by decide

/-- C10: `realloc(NULL, 0)` takes the size-zero branch first, performing
`free(NULL)` — a no-op — and returning null with the allocator state
untouched, for every state and every outcome of the growth primitive. -/
theorem C10_realloc_null_zero_is_noop (sbrk : Option Unit) (s : MMState) :
    reallocM 0 0 sbrk s = some (none, s) := rfl

end MM
